import Mathlib

/-!
Shallow embedding of the NearAI Langflow components
(`langflow/components/agents/nearai_agent.py` and
`langflow/components/models/nearai.py`), together with theorems about the
credential resolver, the model catalog and the tool-calling conversation
loop `chat_response`.

Python values are modelled explicitly: `Option` for values that may be
`None`, `Except String` for computations that may raise, and association
lists (with last-write-wins lookup) for `dict`s.  The stdlib JSON parser
`json.loads` is not part of the repository; it is passed as an explicit
function parameter of type `String → Except String Json`.
-/

namespace NearFlow

/-- JSON values (results of `json.loads`, inputs of `json.dumps`). -/
inductive Json where
  | null
  | bool (b : Bool)
  | num (n : Int)
  | str (s : String)
  | arr (xs : List Json)
  | obj (fields : List (String × Json))
deriving Repr

/-- Python `d.get(k)` / `d[k]` on a dict built by successive insertion:
the last binding for a key wins. -/
def dictGet {α : Type} (d : List (String × α)) (k : String) : Option α :=
  d.reverse.lookup k

/-- Python `d.get(k, dflt)`. -/
def dictGetD {α : Type} (d : List (String × α)) (k : String) (dflt : α) : α :=
  (dictGet d k).getD dflt

/-- Python subscription `j["auth"]` on a parsed JSON value: a `KeyError`
when the key is missing from a dict, a `TypeError` when the value is not
a dict.  `Except.error` models the raised exception. -/
def jsonDictGet (j : Json) (k : String) : Except String Json :=
  match j with
  | .obj fields =>
    match dictGet fields k with
    | some v => Except.ok v
    | none => Except.error ("KeyError: " ++ k)
  | _ => Except.error "TypeError: value is not subscriptable by string"

mutual

/-- `json.dumps` (modelled serializer for the stdlib function; the
repository only forwards its output opaquely). -/
def jsonDumps : Json → String
  | .null => "null"
  | .bool true => "true"
  | .bool false => "false"
  | .num n => toString n
  | .str s => "\"" ++ s ++ "\""
  | .arr xs => "[" ++ jsonDumpsList xs ++ "]"
  | .obj fs => "\x7b" ++ jsonDumpsObj fs ++ "\x7d"

def jsonDumpsList : List Json → String
  | [] => ""
  | [j] => jsonDumps j
  | j :: js => jsonDumps j ++ ", " ++ jsonDumpsList js

def jsonDumpsObj : List (String × Json) → String
  | [] => ""
  | [(k, v)] => "\"" ++ k ++ "\": " ++ jsonDumps v
  | (k, v) :: fs => "\"" ++ k ++ "\": " ++ jsonDumps v ++ ", " ++ jsonDumpsObj fs

end

/-- Python truthiness of an optional string (`None` and `""` are falsy). -/
def pyStrTruthy : Option String → Bool
  | none => false
  | some s => !(s == "")

/-- Python `x or dflt` for an optional string `x` (`None` and `""` fall
through to the default). -/
def pyOrStr (x : Option String) (dflt : String) : String :=
  match x with
  | none => dflt
  | some s => if s == "" then dflt else s

/-! ## Credential resolver -/

/-- `NearAIAgentComponent.get_credentials_api_key`
(`nearai_agent.py`, lines 121-130).
`near_credentials = none` models a missing attribute; the empty string is
falsy.  `SecretStr(s).get_secret_value()` is the identity on the stored
string.  Every exception inside the `try` (JSON parse failure, `KeyError`
from `credentials_json["auth"]`, `TypeError` on a non-dict) is caught and
mapped to `None`. -/
def get_credentials_api_key (near_credentials : Option String)
    (jsonLoads : String → Except String Json) : Option String :=
  match near_credentials with
  | none => none
  | some s =>
    if s == "" then none
    else
      match jsonLoads s with
      | .error _ => none
      | .ok credentials_json =>
        match jsonDictGet credentials_json "auth" with
        | .error _ => none
        | .ok v => some (jsonDumps v)

/-- `NearAIModelComponent.get_credentials_api_key`
(`nearai.py`, lines 203-224).  It tests `"auth" in credentials_json`
explicitly and returns `None` when absent; `json.JSONDecodeError` and any
other exception (e.g. the membership test or subscription on a non-dict
value) are caught and mapped to `None`. -/
def nearai_get_credentials_api_key (near_credentials : Option String)
    (jsonLoads : String → Except String Json) : Option String :=
  match near_credentials with
  | none => none
  | some s =>
    if s == "" then none
    else
      match jsonLoads s with
      | .error _ => none
      | .ok credentials_json =>
        match credentials_json with
        | .obj fields =>
          match dictGet fields "auth" with
          | some v => some (jsonDumps v)
          | none => none
        | _ => none

/-- `NearAIModelComponent.get_default_credentials_api_key`
(`nearai.py`, lines 41-48).  There is no `try` here: when
`default_credentials` is non-empty, the body evaluates
`SecretStr(cls.near_credentials).get_secret_value()` — a plain string —
and then subscripts it with the string key `"auth"`, which raises a
`TypeError` that escapes the function.  `Except.error` models the escaped
exception. -/
def get_default_credentials_api_key (default_credentials : String)
    (_near_credentials : String) : Except String (Option String) :=
  if default_credentials == "" then Except.ok none
  else Except.error "TypeError: string indices must be integers"

/-! ## Model catalog -/

/-- Scan for an occurrence of `sep` anywhere in `s` (Python `sep in s`
for a non-empty separator). -/
def containsSub (sep : List Char) : List Char → Bool
  | [] => sep.isPrefixOf ([] : List Char)
  | c :: cs => sep.isPrefixOf (c :: cs) || containsSub sep cs

/-- Python `s.split(sep, 1)` when `sep` occurs in `s`: the part before
the first occurrence and the part after it.  `none` when `sep` does not
occur. -/
def splitOnce (sep : List Char) : List Char → Option (List Char × List Char)
  | [] => if sep.isPrefixOf ([] : List Char) then some ([], []) else none
  | c :: cs =>
    if sep.isPrefixOf (c :: cs) then some ([], (c :: cs).drop sep.length)
    else
      match splitOnce sep cs with
      | some (p, r) => some (c :: p, r)
      | none => none

/-- Python `path.split('/')[-1]`: everything after the last `'/'` (the
whole string when there is none). -/
def afterLastSlash (s : List Char) : List Char :=
  s.foldl (fun acc c => if c = '/' then [] else acc ++ [c]) []

/-- The two-character separator `"::"`. -/
def sepColons : List Char := [':', ':']

/-- `format_model_display_name` (`nearai_agent.py`, lines 58-63 and
`nearai.py`, lines 27-39, identical logic):
`provider::path/to/model ↦ "provider - model"`, identity otherwise. -/
def format_model_display_name (name : String) : String :=
  if containsSub sepColons name.data then
    match splitOnce sepColons name.data with
    | some (provider, path) =>
      String.mk provider ++ " - " ++ String.mk (afterLastSlash path)
    | none => name
  else name

/-- The display map `{format_model_display_name(m): m for m in models}`
as an association list in comprehension order. -/
def buildDisplayMap (models : List String) : List (String × String) :=
  models.map (fun m => (format_model_display_name m, m))

/-- Model resolution in `chat_response` (`nearai_agent.py`, line 167):
`self._model_display_map.get(model_name, model_name)`. -/
def resolve (map : List (String × String)) (x : String) : String :=
  dictGetD map x x

/-- Model resolution in `NearAIModelComponent.build_model`
(`nearai.py`, lines 238-239): `if model_name in map: model_name =
map[model_name]` — membership test followed by subscription. -/
def nearai_resolve (map : List (String × String)) (x : String) : String :=
  match dictGet map x with
  | some v => v
  | none => x

/-- Result of `NearAIAgentComponent.fetch_openai_models`
(`nearai_agent.py`, lines 41-56): the Python return value, the new class
caches, and whether `client.models.list()` was reached. -/
structure FetchResult where
  ret : List String
  models : List String
  displayMap : List (String × String)
  networkCalled : Bool
deriving Repr

/-- `NearAIAgentComponent.fetch_openai_models` (`nearai_agent.py`,
lines 41-56).  `modelsNet` is the outcome of the `client.models.list()`
network call (`Except.error` models a raised exception, caught by the
surrounding `try`). -/
def fetch_openai_models (api_key : Option String) (cachedModels : List String)
    (cachedMap : List (String × String))
    (modelsNet : Except String (List String)) : FetchResult :=
  if !(pyStrTruthy api_key) then
    { ret := cachedModels, models := cachedModels, displayMap := cachedMap
      networkCalled := false }
  else
    match modelsNet with
    | .ok ids =>
      { ret := ids, models := ids, displayMap := buildDisplayMap ids
        networkCalled := true }
    | .error _ =>
      { ret := cachedModels, models := cachedModels, displayMap := cachedMap
        networkCalled := true }

/-- Result of `NearAIModelComponent.fetch_openai_models` (`nearai.py`,
lines 50-74).  `ret = none` models the Python function returning `None`. -/
structure NearaiFetchResult where
  ret : Option (List String)
  models : List String
  dropdownUpdated : Bool
  networkCalled : Bool
deriving Repr, DecidableEq

/-- `NearAIModelComponent.fetch_openai_models` (`nearai.py`,
lines 50-74).  On a successful fetch of a non-empty list the function
stores the list, calls `update_dropdown()` and falls off the end of the
`try`, returning `None`; on a missing key, an empty list or any
exception it returns the cached list. -/
def nearai_fetch_openai_models (api_key : Option String)
    (cachedModels : List String)
    (modelsNet : Except String (List String)) : NearaiFetchResult :=
  if !(pyStrTruthy api_key) then
    { ret := some cachedModels, models := cachedModels
      dropdownUpdated := false, networkCalled := false }
  else
    match modelsNet with
    | .ok model_names =>
      if model_names.isEmpty then
        { ret := some cachedModels, models := cachedModels
          dropdownUpdated := false, networkCalled := true }
      else
        { ret := none, models := model_names
          dropdownUpdated := true, networkCalled := true }
    | .error _ =>
      { ret := some cachedModels, models := cachedModels
        dropdownUpdated := false, networkCalled := true }

/-! ## Conversation loop data model -/

/-- The `"function"` record of a tool call emitted by the endpoint:
`{"name": ..., "arguments": ...}`, each field possibly absent/null. -/
structure ToolFunction where
  name : Option String
  arguments : Option String
deriving Repr, DecidableEq

/-- A tool call record emitted by the endpoint: `{"id": ..., "function":
{...}}`, each field possibly absent/null. -/
structure ToolCall where
  id : Option String
  function : Option ToolFunction
deriving Repr, DecidableEq

/-- The `"tool_calls"` field of an assistant message: absent/null,
present but not a list (fails the `isinstance(tool_calls, list)` check),
or an actual list. -/
inductive ToolCallsField where
  | absent
  | nonList
  | list (calls : List ToolCall)
deriving Repr, DecidableEq

/-- The `"message"` record of a completion choice. -/
structure RespMessage where
  content : Option String
  tool_calls : ToolCallsField
deriving Repr, DecidableEq

/-- One element of the `"choices"` array. -/
structure Choice where
  message : Option RespMessage
deriving Repr, DecidableEq

/-- A parsed chat-completion response body.  `choices = none` covers both
a falsy response and a missing `"choices"` key (the code treats the two
identically at lines 210 and 262). -/
structure Response where
  choices : Option (List Choice)
deriving Repr, DecidableEq

/-- Outcome of `run_near_ai_completion` (`nearai_agent.py`, lines
132-149): the parsed JSON body on HTTP 200, or a raised exception
(transport failure or `raise_for_status`). -/
inductive NetResult where
  | ok (r : Response)
  | fail (e : String)
deriving Repr, DecidableEq

/-- A conversation message appended to the `messages` list sent to the
endpoint. -/
inductive Msg where
  | system (content : String)
  | user (content : String)
  | assistantToolCall (call : ToolCall)
  | toolResult (tool_call_id : String) (name : String) (content : String)
deriving Repr, DecidableEq

/-- A host-supplied tool binding.  `run` models calling the underlying
callable with the parsed arguments (`Except.error` = raised exception;
it also covers the `TypeError` from `f(**args)` when the parsed
arguments are not a dict).  `setup_error` models an exception raised
while preparing the binding (e.g. assigning `__name__`), caught per tool
at lines 197-198 before the registry insertion. -/
structure PyTool where
  name : String
  run : Json → Except String String
  has_schema : Bool
  setup_error : Option String

/-- The inputs of one `chat_response` invocation, together with the
behaviour of the external world: `jsonLoads` stands for `json.loads`,
`modelsNet` for the models-list endpoint, and `net n` for the outcome of
the `(n+1)`-st chat-completion request. -/
structure Env where
  near_credentials : Option String
  jsonLoads : String → Except String Json
  openai_models : List String
  model_display_map : List (String × String)
  modelsNet : Except String (List String)
  model_name : String
  system_prompt : String
  input_value : String
  tools : List PyTool
  net : Nat → NetResult

/-- The `Message` value returned to the host. -/
structure MessageOut where
  text : String
  sender : String
deriving Repr, DecidableEq

/-- Observable behaviour of one invocation: the `messages` payload of
each chat-completion request issued, the names of the tool calls
dispatched (registry lookup reached), and the final state of the local
`messages` list. -/
structure Trace where
  completions : List (List Msg)
  dispatched : List String
  finalMessages : List Msg
deriving Repr, DecidableEq

/-- Result of one `chat_response` invocation: the returned `Message` and
the observable trace. -/
structure ChatOutcome where
  msg : MessageOut
  trace : Trace
deriving Repr, DecidableEq

/-! ## Conversation loop -/

/-- The initial message sequence (`nearai_agent.py`, lines 200-203). -/
def initialMessages (env : Env) : List Msg :=
  [Msg.system env.system_prompt, Msg.user env.input_value]

/-- The local name→callable registry built at lines 173-198: tools whose
setup raised are skipped (exception caught per tool); later bindings
with the same name overwrite earlier ones (`dict` semantics via
`dictGet`). -/
def buildRegistry (tools : List PyTool) :
    List (String × (Json → Except String String)) :=
  tools.foldl
    (fun acc t =>
      if t.setup_error.isSome then acc else acc ++ [(t.name, t.run)]) []

/-- State threaded through the tool-call `for` loop. -/
structure LoopState where
  messages : List Msg
  dispatched : List String

/-- One iteration of the `for call in tool_calls` loop
(`nearai_agent.py`, lines 220-256).  A missing or empty name is skipped
(`continue`); a JSON argument-parse failure yields `{}`; an unknown name
yields `"[Unknown tool: <name>]"`; a raising callable yields
`"[Tool execution error for <name>] <e>"`; otherwise the callable's
result.  The assistant tool-call message and the tool-result message are
appended in that order. -/
def processToolCall (jsonLoads : String → Except String Json)
    (registry : List (String × (Json → Except String String)))
    (st : LoopState) (call : ToolCall) : LoopState :=
  let function := call.function.getD { name := none, arguments := none }
  if !(pyStrTruthy function.name) then st
  else
    let nm := function.name.getD ""
    let args_json := function.arguments.getD "\x7b\x7d"
    let args : Json :=
      match jsonLoads args_json with
      | .ok a => a
      | .error _ => Json.obj []
    let result : String :=
      match dictGet registry nm with
      | some f =>
        match f args with
        | .ok r => r
        | .error e => "[Tool execution error for " ++ nm ++ "] " ++ e
      | none => "[Unknown tool: " ++ nm ++ "]"
    { messages := st.messages ++
        [Msg.assistantToolCall call,
         Msg.toolResult (call.id.getD "unknown_id") nm result]
      dispatched := st.dispatched ++ [nm] }

/-- The messages one tool call contributes to the sequence (specification
function used to characterise the loop). -/
def toolCallMsgs (jsonLoads : String → Except String Json)
    (registry : List (String × (Json → Except String String)))
    (call : ToolCall) : List Msg :=
  (processToolCall jsonLoads registry { messages := [], dispatched := [] }
    call).messages

/-- The dispatched-name contribution of one tool call. -/
def toolCallDispatch (call : ToolCall) : List String :=
  let function := call.function.getD { name := none, arguments := none }
  if pyStrTruthy function.name then [function.name.getD ""] else []

/-- The tool-call branch (`nearai_agent.py`, lines 219-256 followed by
the fall-through at lines 271-273): run the loop over the calls, then —
without issuing another request — return the FIRST response's content
(or the placeholder).  Only one completion request appears in the
trace. -/
def toolBranchResult (env : Env) (message : RespMessage)
    (calls : List ToolCall) (messages : List Msg) : ChatOutcome :=
  let registry := buildRegistry env.tools
  let st := calls.foldl (processToolCall env.jsonLoads registry)
    { messages := messages, dispatched := [] }
  let final_content := pyOrStr message.content "[No response from assistant]"
  { msg := { text := final_content, sender := "Assistant" }
    trace := { completions := [messages], dispatched := st.dispatched
               finalMessages := st.messages } }

/-- The no-tool-call branch (`nearai_agent.py`, lines 257-269): issue a
second completion request with the UNCHANGED message sequence and return
that second response's content (or the empty-reply placeholder).  The
second request is not wrapped in an inner `try`, so a raised exception
reaches the top-level handler at lines 275-277, which returns a message
with sender `"AI"`. -/
def elseBranchResult (env : Env) (messages : List Msg) : ChatOutcome :=
  match env.net 1 with
  | .fail e =>
    { msg := { text := "[❌ Exception in chat_response] " ++ e, sender := "AI" }
      trace := { completions := [messages, messages], dispatched := []
                 finalMessages := messages } }
  | .ok followup =>
    match followup.choices with
    | none =>
      { msg := { text := "[NEARAI ERROR] No assistant reply received."
                 sender := "Assistant" }
        trace := { completions := [messages, messages], dispatched := []
                   finalMessages := messages } }
    | some [] =>
      { msg := { text := "[NEARAI ERROR] No assistant reply received."
                 sender := "Assistant" }
        trace := { completions := [messages, messages], dispatched := []
                   finalMessages := messages } }
    | some (c :: _) =>
      let followup_message :=
        c.message.getD { content := none, tool_calls := ToolCallsField.absent }
      let final_content :=
        pyOrStr followup_message.content "[⚠️ Assistant reply was empty]"
      { msg := { text := final_content, sender := "Assistant" }
        trace := { completions := [messages, messages], dispatched := []
                   finalMessages := messages } }

/-- `NearAIAgentComponent.chat_response` (`nearai_agent.py`, lines
151-277).  The embedded credential resolver is total, so the
`[Credential error]` early return at line 156 is unreachable; class-cache
refresh (lines 158-165), model resolution (line 167), tool setup
(lines 170-198), the first completion request (lines 205-208) and the
response-shape guards (lines 210-215) are transcribed in order.  The
branch on `tool_calls and isinstance(tool_calls, list)` sends a non-list
or empty `tool_calls` to the no-tool-call branch. -/
def chat_response (env : Env) : ChatOutcome :=
  let api_key := get_credentials_api_key env.near_credentials env.jsonLoads
  let fetched :=
    if env.openai_models.isEmpty then
      fetch_openai_models api_key env.openai_models env.model_display_map
        env.modelsNet
    else
      { ret := env.openai_models, models := env.openai_models
        displayMap := env.model_display_map, networkCalled := false }
  let map0 := fetched.displayMap
  let map := if map0.isEmpty then buildDisplayMap fetched.models else map0
  let _resolved := resolve map env.model_name
  let messages := initialMessages env
  match env.net 0 with
  | .fail e =>
    { msg := { text := "[NearAI call failed] " ++ e, sender := "Assistant" }
      trace := { completions := [messages], dispatched := []
                 finalMessages := messages } }
  | .ok response =>
    match response.choices with
    | none =>
      { msg := { text := "[NEARAI ERROR] No response generated."
                 sender := "Assistant" }
        trace := { completions := [messages], dispatched := []
                   finalMessages := messages } }
    | some [] =>
      { msg := { text := "[NEARAI ERROR] No response generated."
                 sender := "Assistant" }
        trace := { completions := [messages], dispatched := []
                   finalMessages := messages } }
    | some (choice :: _) =>
      match choice.message with
      | none =>
        { msg := { text := "[NEARAI ERROR] Response contained no message."
                   sender := "Assistant" }
          trace := { completions := [messages], dispatched := []
                     finalMessages := messages } }
      | some message =>
        match message.tool_calls with
        | ToolCallsField.list (c :: cs) =>
          toolBranchResult env message (c :: cs) messages
        | _ => elseBranchResult env messages

/-- Whether a `tool_calls` field satisfies the branch condition
`tool_calls and isinstance(tool_calls, list)` (a non-empty actual
list). -/
def toolBranchTaken : ToolCallsField → Bool
  | ToolCallsField.list (_ :: _) => true
  | _ => false

/-- The tool-call names the loop dispatches for a given first-response
outcome: the (truthy) names of the first choice's tool calls, in order,
and nothing on any error/guard path. -/
def firstResponseDispatch : NetResult → List String
  | .fail _ => []
  | .ok r =>
    match r.choices with
    | none => []
    | some [] => []
    | some (c :: _) =>
      match c.message with
      | none => []
      | some m =>
        match m.tool_calls with
        | ToolCallsField.list calls => calls.flatMap toolCallDispatch
        | _ => []

/-! ## Concrete inputs used in the evaluation theorems and witnesses -/

/-- A response whose first choice has the given content and tool-call
field. -/
def mkResp (content : Option String) (tc : ToolCallsField) : Response :=
  { choices := some [{ message := some { content := content, tool_calls := tc } }] }

/-- A baseline environment (no tools, failing JSON parser, non-empty
model cache). -/
def baseEnv : Env :=
  { near_credentials := none
    jsonLoads := fun _ => Except.error "Expecting value"
    openai_models := ["m1"]
    model_display_map := [("m1", "m1")]
    modelsNet := Except.error "network down"
    model_name := "m1"
    system_prompt := "sys"
    input_value := "hi"
    tools := []
    net := fun _ => NetResult.fail "unused" }

/-- A tool call naming a tool that is not in the registry. -/
def callUnknown : ToolCall :=
  { id := some "call_1"
    function := some { name := some "mytool", arguments := some "\x7b\x7d" } }

/-- A registered tool whose callable raises. -/
def boomTool : PyTool :=
  { name := "boom", run := fun _ => Except.error "kaboom"
    has_schema := true, setup_error := none }

/-- A registered tool whose callable succeeds with result `"fine"`. -/
def okTool : PyTool :=
  { name := "okt", run := fun _ => Except.ok "fine"
    has_schema := true, setup_error := none }

/-- A tool call to `boom`. -/
def callBoom : ToolCall :=
  { id := some "id1"
    function := some { name := some "boom", arguments := some "\x7b\x7d" } }

/-- A tool call to `okt`. -/
def callOk : ToolCall :=
  { id := some "id2"
    function := some { name := some "okt", arguments := some "\x7b\x7d" } }

/-- A tool call whose function record has no name. -/
def callNoName : ToolCall :=
  { id := some "id3", function := some { name := none, arguments := none } }

/-- First response: one tool call to an unregistered tool, null content;
second response (never requested by the code): content `"SECOND"`. -/
def envToolCall : Env :=
  { baseEnv with
    net := fun n =>
      if n = 0 then NetResult.ok (mkResp none (ToolCallsField.list [callUnknown]))
      else NetResult.ok (mkResp (some "SECOND") ToolCallsField.absent) }

/-- First response: no tool calls, content `"Hello"`; second response:
content `"World"`. -/
def envHello : Env :=
  { baseEnv with
    net := fun n =>
      if n = 0 then NetResult.ok (mkResp (some "Hello") ToolCallsField.absent)
      else NetResult.ok (mkResp (some "World") ToolCallsField.absent) }

/-- Two registered tools; the first response calls `boom` (raises) then
`okt` (succeeds). -/
def envTwoTools : Env :=
  { baseEnv with
    tools := [boomTool, okTool]
    net := fun n =>
      if n = 0 then
        NetResult.ok (mkResp none (ToolCallsField.list [callBoom, callOk]))
      else NetResult.ok (mkResp (some "SECOND") ToolCallsField.absent) }

/-- One registered tool; the first response carries a named call, a
nameless call and an unregistered named call. -/
def envNameless : Env :=
  { baseEnv with
    tools := [okTool]
    net := fun n =>
      if n = 0 then
        NetResult.ok (mkResp none (ToolCallsField.list [callOk, callNoName, callBoom]))
      else NetResult.ok (mkResp (some "SECOND") ToolCallsField.absent) }

/-! ## Helper lemmas -/

theorem processToolCall_messages (jl : String → Except String Json)
    (reg : List (String × (Json → Except String String)))
    (st : LoopState) (call : ToolCall) :
    (processToolCall jl reg st call).messages
      = st.messages ++ toolCallMsgs jl reg call := by
  cases h : pyStrTruthy ((call.function.getD { name := none, arguments := none }).name) <;>
    simp [processToolCall, toolCallMsgs, h]

theorem processToolCall_dispatched (jl : String → Except String Json)
    (reg : List (String × (Json → Except String String)))
    (st : LoopState) (call : ToolCall) :
    (processToolCall jl reg st call).dispatched
      = st.dispatched ++ toolCallDispatch call := by
  cases h : pyStrTruthy ((call.function.getD { name := none, arguments := none }).name) <;>
    simp [processToolCall, toolCallDispatch, h]

theorem foldl_processToolCall (jl : String → Except String Json)
    (reg : List (String × (Json → Except String String)))
    (calls : List ToolCall) (st : LoopState) :
    (calls.foldl (processToolCall jl reg) st).messages
        = st.messages ++ calls.flatMap (toolCallMsgs jl reg) ∧
      (calls.foldl (processToolCall jl reg) st).dispatched
        = st.dispatched ++ calls.flatMap toolCallDispatch := by
  induction calls generalizing st with
  | nil => simp
  | cons c cs ih =>
    simp only [List.foldl_cons, List.flatMap_cons]
    rw [(ih (processToolCall jl reg st c)).1, (ih (processToolCall jl reg st c)).2,
      processToolCall_messages, processToolCall_dispatched]
    constructor <;> rw [List.append_assoc]

theorem toolCallMsgs_of_nameless (jl : String → Except String Json)
    (reg : List (String × (Json → Except String String))) (call : ToolCall)
    (h : pyStrTruthy ((call.function.getD { name := none, arguments := none }).name) = false) :
    toolCallMsgs jl reg call = [] ∧ toolCallDispatch call = [] := by
  constructor <;> simp [toolCallMsgs, toolCallDispatch, processToolCall, h]

theorem lookup_eq_none_of_not_mem_keys {α : Type} {l : List (String × α)}
    {k : String} (h : k ∉ l.map Prod.fst) : l.lookup k = none := by
  induction l with
  | nil => rfl
  | cons p t ih =>
    obtain ⟨a, b⟩ := p
    simp only [List.map_cons, List.mem_cons] at h
    push_neg at h
    have hne : (k == a) = false := beq_eq_false_iff_ne.mpr h.1
    simp [List.lookup, hne, ih h.2]

theorem exists_lookup_of_mem_keys {α : Type} {l : List (String × α)}
    {k : String} (h : k ∈ l.map Prod.fst) : ∃ v, l.lookup k = some v := by
  induction l with
  | nil => simp at h
  | cons p t ih =>
    obtain ⟨a, b⟩ := p
    by_cases hk : k = a
    · exact ⟨b, by simp [List.lookup, hk]⟩
    · have hne : (k == a) = false := beq_eq_false_iff_ne.mpr hk
      have hmem : k ∈ t.map Prod.fst := by
        simp only [List.map_cons, List.mem_cons] at h
        exact h.resolve_left hk
      obtain ⟨v, hv⟩ := ih hmem
      exact ⟨v, by simp [List.lookup, hne, hv]⟩

theorem mem_of_lookup_eq_some {α : Type} {l : List (String × α)}
    {k : String} {v : α} (h : l.lookup k = some v) : (k, v) ∈ l := by
  induction l with
  | nil => simp [List.lookup] at h
  | cons p t ih =>
    obtain ⟨a, b⟩ := p
    by_cases hk : k = a
    · subst hk
      simp [List.lookup] at h
      simp [h]
    · have hne : (k == a) = false := beq_eq_false_iff_ne.mpr hk
      simp only [List.lookup, hne] at h
      exact List.mem_cons_of_mem _ (ih h)

theorem dictGet_eq_none_of_not_mem_keys {α : Type} {d : List (String × α)}
    {k : String} (h : k ∉ d.map Prod.fst) : dictGet d k = none := by
  apply lookup_eq_none_of_not_mem_keys
  rw [List.map_reverse]
  simpa using h

theorem dictGet_exists_of_mem_keys {α : Type} {d : List (String × α)}
    {k : String} (h : k ∈ d.map Prod.fst) :
    ∃ v, dictGet d k = some v ∧ (k, v) ∈ d := by
  have hm : k ∈ d.reverse.map Prod.fst := by
    rw [List.map_reverse]
    simpa using h
  obtain ⟨v, hv⟩ := exists_lookup_of_mem_keys hm
  exact ⟨v, hv, List.mem_reverse.mp (mem_of_lookup_eq_some hv)⟩

theorem splitOnce_exists_of_containsSub {sep s : List Char}
    (h : containsSub sep s = true) : ∃ p r, splitOnce sep s = some (p, r) := by
  induction s with
  | nil =>
    simp only [containsSub] at h
    exact ⟨[], [], by simp [splitOnce, h]⟩
  | cons c cs ih =>
    by_cases hp : sep.isPrefixOf (c :: cs)
    · exact ⟨[], (c :: cs).drop sep.length, by simp [splitOnce, hp]⟩
    · simp only [containsSub, Bool.or_eq_true] at h
      obtain ⟨p, r, hr⟩ := ih (h.resolve_left (by simp [hp]))
      exact ⟨c :: p, r, by simp [splitOnce, hp, hr]⟩

theorem splitOnce_decomp {sep s p r : List Char}
    (h : splitOnce sep s = some (p, r)) : s = p ++ sep ++ r := by
  induction s generalizing p r with
  | nil =>
    simp only [splitOnce] at h
    split at h
    · rename_i hp
      obtain ⟨rfl, rfl⟩ := Prod.mk.injEq .. ▸ Option.some.injEq .. ▸ h
      have : sep <+: ([] : List Char) := List.isPrefixOf_iff_prefix.mp hp
      have : sep = [] := List.prefix_nil.mp this
      simp [this]
    · exact absurd h (by simp)
  | cons c cs ih =>
    simp only [splitOnce] at h
    split at h
    · rename_i hp
      obtain ⟨rfl, rfl⟩ := Prod.mk.injEq .. ▸ Option.some.injEq .. ▸ h
      have hpre : sep <+: (c :: cs) := List.isPrefixOf_iff_prefix.mp hp
      have := List.prefix_iff_eq_append.mp hpre
      simp only [List.nil_append]
      exact this.symm
    · rename_i hp
      rcases hsplit : splitOnce sep cs with _ | ⟨q, r'⟩
      · rw [hsplit] at h; exact absurd h (by simp)
      · rw [hsplit] at h
        obtain ⟨rfl, rfl⟩ := Prod.mk.injEq .. ▸ Option.some.injEq .. ▸ h
        have := ih hsplit
        simp [this]

theorem splitOnce_min {sep s p r : List Char}
    (h : splitOnce sep s = some (p, r)) :
    ∀ p' r', s = p' ++ sep ++ r' → p.length ≤ p'.length := by
  induction s generalizing p r with
  | nil =>
    intro p' r' hs
    simp only [splitOnce] at h
    split at h
    · obtain ⟨rfl, rfl⟩ := Prod.mk.injEq .. ▸ Option.some.injEq .. ▸ h
      simp
    · exact absurd h (by simp)
  | cons c cs ih =>
    intro p' r' hs
    simp only [splitOnce] at h
    split at h
    · obtain ⟨rfl, rfl⟩ := Prod.mk.injEq .. ▸ Option.some.injEq .. ▸ h
      simp
    · rename_i hp
      rcases hsplit : splitOnce sep cs with _ | ⟨q, r''⟩
      · rw [hsplit] at h; exact absurd h (by simp)
      · rw [hsplit] at h
        obtain ⟨rfl, rfl⟩ := Prod.mk.injEq .. ▸ Option.some.injEq .. ▸ h
        cases p' with
        | nil =>
          exfalso
          apply hp
          apply List.isPrefixOf_iff_prefix.mpr
          simp only [List.nil_append] at hs
          exact ⟨r', hs.symm⟩
        | cons c' p'' =>
          simp only [List.cons_append, List.cons.injEq] at hs
          have := ih hsplit p'' r' hs.2
          simpa using Nat.succ_le_succ this

theorem afterLastSlash_step (acc : List Char) (c : Char) (cs : List Char) :
    List.foldl (fun acc c => if c = '/' then [] else acc ++ [c]) acc (c :: cs)
      = List.foldl (fun acc c => if c = '/' then [] else acc ++ [c])
          (if c = '/' then [] else acc ++ [c]) cs := rfl

theorem afterLastSlash_foldl_spec (r : List Char) : ∀ acc : List Char,
    '/' ∉ acc →
    '/' ∉ r.foldl (fun acc c => if c = '/' then [] else acc ++ [c]) acc ∧
      ((r.foldl (fun acc c => if c = '/' then [] else acc ++ [c]) acc = acc ++ r ∧
          '/' ∉ r) ∨
        ∃ u, acc ++ r =
          u ++ '/' :: r.foldl (fun acc c => if c = '/' then [] else acc ++ [c]) acc) := by
  induction r with
  | nil =>
    intro acc hacc
    exact ⟨hacc, Or.inl ⟨by simp, by simp⟩⟩
  | cons c cs ih =>
    intro acc hacc
    simp only [afterLastSlash_step]
    by_cases hc : c = '/'
    · subst hc
      rw [if_pos rfl]
      obtain ⟨h1, h2⟩ := ih [] (by simp)
      refine ⟨h1, Or.inr ?_⟩
      rcases h2 with ⟨heq, _⟩ | ⟨u, hu⟩
      · refine ⟨acc, ?_⟩
        rw [heq]
        simp
      · simp only [List.nil_append] at hu
        refine ⟨acc ++ '/' :: u, ?_⟩
        conv_lhs => rw [hu]
        simp
    · rw [if_neg hc]
      have hacc' : '/' ∉ acc ++ [c] := by
        simp only [List.mem_append, List.mem_singleton]
        rintro (h | h)
        · exact hacc h
        · exact hc h.symm
      obtain ⟨h1, h2⟩ := ih (acc ++ [c]) hacc'
      refine ⟨h1, ?_⟩
      rcases h2 with ⟨heq, hno⟩ | ⟨u, hu⟩
      · refine Or.inl ⟨?_, ?_⟩
        · rw [heq]
          simp
        · simp only [List.mem_cons]
          rintro (h | h)
          · exact hc h.symm
          · exact hno h
      · refine Or.inr ⟨u, ?_⟩
        rw [← hu]
        simp

theorem elseBranchResult_trace (env : Env) (messages : List Msg) :
    (elseBranchResult env messages).trace =
      { completions := [messages, messages], dispatched := []
        finalMessages := messages } := by
  unfold elseBranchResult
  cases h1 : env.net 1 with
  | fail e => rfl
  | ok r =>
    obtain ⟨choices⟩ := r
    cases choices with
    | none => rfl
    | some l =>
      cases l with
      | nil => rfl
      | cons c cl => rfl

theorem elseBranchResult_sender (env : Env) (messages : List Msg) :
    (elseBranchResult env messages).msg.sender = "Assistant" ∨
      ((elseBranchResult env messages).msg.sender = "AI" ∧
        ∃ e, env.net 1 = NetResult.fail e ∧
          (elseBranchResult env messages).msg.text =
            "[❌ Exception in chat_response] " ++ e) := by
  unfold elseBranchResult
  cases h1 : env.net 1 with
  | fail e => exact Or.inr ⟨rfl, e, rfl, rfl⟩
  | ok r =>
    obtain ⟨choices⟩ := r
    cases choices with
    | none => exact Or.inl rfl
    | some l =>
      cases l with
      | nil => exact Or.inl rfl
      | cons c cl => exact Or.inl rfl

theorem chat_response_netfail (env : Env) (e : String)
    (h : env.net 0 = NetResult.fail e) :
    chat_response env =
      { msg := { text := "[NearAI call failed] " ++ e, sender := "Assistant" }
        trace := { completions := [initialMessages env], dispatched := []
                   finalMessages := initialMessages env } } := by
  unfold chat_response
  rw [h]

theorem chat_response_nochoices (env : Env) (choices : Option (List Choice))
    (h : env.net 0 = NetResult.ok { choices := choices })
    (hc : choices = none ∨ choices = some []) :
    chat_response env =
      { msg := { text := "[NEARAI ERROR] No response generated."
                 sender := "Assistant" }
        trace := { completions := [initialMessages env], dispatched := []
                   finalMessages := initialMessages env } } := by
  unfold chat_response
  rw [h]
  rcases hc with rfl | rfl <;> rfl

theorem chat_response_nomessage (env : Env) (rest : List Choice)
    (h : env.net 0 = NetResult.ok { choices := some ({ message := none } :: rest) }) :
    chat_response env =
      { msg := { text := "[NEARAI ERROR] Response contained no message."
                 sender := "Assistant" }
        trace := { completions := [initialMessages env], dispatched := []
                   finalMessages := initialMessages env } } := by
  unfold chat_response
  rw [h]

theorem chat_response_toolbranch (env : Env) (message : RespMessage)
    (rest : List Choice) (c : ToolCall) (cs : List ToolCall)
    (h : env.net 0 = NetResult.ok { choices := some ({ message := some message } :: rest) })
    (htc : message.tool_calls = ToolCallsField.list (c :: cs)) :
    chat_response env = toolBranchResult env message (c :: cs) (initialMessages env) := by
  unfold chat_response
  rw [h]
  obtain ⟨content, tool_calls⟩ := message
  simp only at htc
  rw [htc]

theorem chat_response_elsebranch (env : Env) (message : RespMessage)
    (rest : List Choice)
    (h : env.net 0 = NetResult.ok { choices := some ({ message := some message } :: rest) })
    (htc : toolBranchTaken message.tool_calls = false) :
    chat_response env = elseBranchResult env (initialMessages env) := by
  unfold chat_response
  rw [h]
  obtain ⟨content, tool_calls⟩ := message
  simp only at htc
  cases tool_calls with
  | absent => rfl
  | nonList => rfl
  | list calls =>
    cases calls with
    | nil => rfl
    | cons c cs => simp [toolBranchTaken] at htc

/-! ## Claim theorems -/

/-- C1: evaluation of the code at the failing input.  The claim says that
after dispatching the first response's tool calls (here one call naming
the unregistered tool `mytool`) the loop issues exactly one more
chat-completion request with the extended message sequence and returns
the second response's content.  The code instead dispatches the call,
appends the assistant tool-call message and the `[Unknown tool: mytool]`
tool-result message, but issues no second request: exactly one completion
request appears in the trace and the first response's (null) content is
returned as the placeholder string. -/
theorem chat_response_toolcall_makes_no_second_request :
    (chat_response envToolCall).trace.completions.length = 1 ∧
      (chat_response envToolCall).msg =
        { text := "[No response from assistant]", sender := "Assistant" } ∧
      (chat_response envToolCall).trace.finalMessages =
        [Msg.system "sys", Msg.user "hi", Msg.assistantToolCall callUnknown,
         Msg.toolResult "call_1" "mytool" "[Unknown tool: mytool]"] :=
  ⟨rfl, rfl, rfl⟩

/-- C2: evaluation of the code at the failing input.  The claim says that
on a first response with no tool calls and content `"Hello"` the loop
makes exactly one completion request and returns `"Hello"`.  The code
instead issues a second completion request with the unchanged two-message
payload and returns the second response's content (`"World"` here). -/
theorem chat_response_hello_makes_two_requests :
    (chat_response envHello).trace.completions.length = 2 ∧
      (chat_response envHello).msg = { text := "World", sender := "Assistant" } ∧
      (chat_response envHello).trace.completions =
        [[Msg.system "sys", Msg.user "hi"], [Msg.system "sys", Msg.user "hi"]] :=
  ⟨rfl, rfl, rfl⟩

/-- C3: for every environment, `chat_response` issues at most two
chat-completion requests, and the tool calls it dispatches are exactly
the (named) tool calls of the FIRST response — tool calls appearing in a
second response are never dispatched. -/
theorem chat_response_at_most_two_calls (env : Env) :
    (chat_response env).trace.completions.length ≤ 2 ∧
      (chat_response env).trace.dispatched = firstResponseDispatch (env.net 0) := by
  cases h0 : env.net 0 with
  | fail e =>
    rw [chat_response_netfail env e h0]
    exact ⟨by simp, rfl⟩
  | ok r =>
    obtain ⟨choices⟩ := r
    cases choices with
    | none =>
      rw [chat_response_nochoices env none h0 (Or.inl rfl)]
      exact ⟨by simp, rfl⟩
    | some l =>
      cases l with
      | nil =>
        rw [chat_response_nochoices env (some []) h0 (Or.inr rfl)]
        exact ⟨by simp, rfl⟩
      | cons choice rest =>
        obtain ⟨message⟩ := choice
        cases message with
        | none =>
          rw [chat_response_nomessage env rest h0]
          exact ⟨by simp, rfl⟩
        | some m =>
          cases htc : m.tool_calls with
          | absent =>
            rw [chat_response_elsebranch env m rest h0 (by rw [htc]; rfl),
              elseBranchResult_trace]
            exact ⟨by simp, by simp [firstResponseDispatch, htc]⟩
          | nonList =>
            rw [chat_response_elsebranch env m rest h0 (by rw [htc]; rfl),
              elseBranchResult_trace]
            exact ⟨by simp, by simp [firstResponseDispatch, htc]⟩
          | list calls =>
            cases calls with
            | nil =>
              rw [chat_response_elsebranch env m rest h0 (by rw [htc]; rfl),
                elseBranchResult_trace]
              exact ⟨by simp, by simp [firstResponseDispatch, htc]⟩
            | cons c cs =>
              rw [chat_response_toolbranch env m rest c cs h0 htc]
              constructor
              · simp [toolBranchResult]
              · simp only [toolBranchResult, firstResponseDispatch, htc,
                  (foldl_processToolCall env.jsonLoads (buildRegistry env.tools)
                    (c :: cs) _).2]
                simp

/-- C4: whenever the first response carries a non-empty list of tool
calls, the loop processes them strictly in the order received and its
final message sequence is the initial system/user pair followed by each
call's contribution in order: for a named call, the assistant tool-call
message then a tool-result message whose content is the callable's
result, the synthetic `[Tool execution error for <name>] ...` string when
the callable raises, or `[Unknown tool: <name>]` when the name is not
registered (a JSON argument-parse failure yields the empty argument set
and the call still proceeds) — so one call's failure never prevents the
processing of the remaining calls. -/
theorem chat_response_toolloop_in_order (env : Env) (message : RespMessage)
    (rest : List Choice) (c : ToolCall) (cs : List ToolCall)
    (h : env.net 0 = NetResult.ok { choices := some ({ message := some message } :: rest) })
    (htc : message.tool_calls = ToolCallsField.list (c :: cs)) :
    (chat_response env).trace.finalMessages =
      initialMessages env ++
        (c :: cs).flatMap (toolCallMsgs env.jsonLoads (buildRegistry env.tools)) ∧
      (∀ (call : ToolCall) (nm : String),
        (call.function.getD { name := none, arguments := none }).name = some nm →
        nm ≠ "" →
        dictGet (buildRegistry env.tools) nm = none →
        toolCallMsgs env.jsonLoads (buildRegistry env.tools) call =
          [Msg.assistantToolCall call,
           Msg.toolResult (call.id.getD "unknown_id") nm
             ("[Unknown tool: " ++ nm ++ "]")]) ∧
      (∀ (call : ToolCall) (nm : String) (f : Json → Except String String)
          (a : Json) (e : String),
        (call.function.getD { name := none, arguments := none }).name = some nm →
        nm ≠ "" →
        dictGet (buildRegistry env.tools) nm = some f →
        env.jsonLoads
            ((call.function.getD { name := none, arguments := none }).arguments.getD
              "\x7b\x7d") = Except.ok a →
        f a = Except.error e →
        toolCallMsgs env.jsonLoads (buildRegistry env.tools) call =
          [Msg.assistantToolCall call,
           Msg.toolResult (call.id.getD "unknown_id") nm
             ("[Tool execution error for " ++ nm ++ "] " ++ e)]) ∧
      (∀ (call : ToolCall) (nm : String) (f : Json → Except String String)
          (pe rv : String),
        (call.function.getD { name := none, arguments := none }).name = some nm →
        nm ≠ "" →
        dictGet (buildRegistry env.tools) nm = some f →
        env.jsonLoads
            ((call.function.getD { name := none, arguments := none }).arguments.getD
              "\x7b\x7d") = Except.error pe →
        f (Json.obj []) = Except.ok rv →
        toolCallMsgs env.jsonLoads (buildRegistry env.tools) call =
          [Msg.assistantToolCall call,
           Msg.toolResult (call.id.getD "unknown_id") nm rv]) := by
  refine ⟨?_, ?_, ?_, ?_⟩
  · rw [chat_response_toolbranch env message rest c cs h htc]
    simp only [toolBranchResult]
    exact (foldl_processToolCall env.jsonLoads (buildRegistry env.tools) (c :: cs) _).1
  · intro call nm hnm hne hreg
    have hb : (nm == "") = false := beq_eq_false_iff_ne.mpr hne
    simp [toolCallMsgs, processToolCall, hnm, hreg, pyStrTruthy, hb]
  · intro call nm f a e hnm hne hreg hj hf
    have hb : (nm == "") = false := beq_eq_false_iff_ne.mpr hne
    simp [toolCallMsgs, processToolCall, hnm, hreg, hj, hf, pyStrTruthy, hb]
  · intro call nm f pe rv hnm hne hreg hj hf
    have hb : (nm == "") = false := beq_eq_false_iff_ne.mpr hne
    simp [toolCallMsgs, processToolCall, hnm, hreg, hj, hf, pyStrTruthy, hb]

/-- C4 witness: two tool calls, the first callable raises (`boom`), the
second succeeds (`okt`); both contributions appear, in order. -/
theorem chat_response_toolloop_in_order_witness :
    (chat_response envTwoTools).trace.finalMessages =
      [Msg.system "sys", Msg.user "hi",
       Msg.assistantToolCall callBoom,
       Msg.toolResult "id1" "boom" "[Tool execution error for boom] kaboom",
       Msg.assistantToolCall callOk,
       Msg.toolResult "id2" "okt" "fine"] :=
  (chat_response_toolloop_in_order envTwoTools
    { content := none, tool_calls := ToolCallsField.list [callBoom, callOk] }
    [] callBoom [callOk] rfl rfl).1.trans rfl

/-- C5: for every environment, `chat_response` returns a message (the
embedding is a total function): sender `"Assistant"` on every handled
path, and the distinguishable sender `"AI"` exactly on the one path whose
exception reaches the top-level handler — a failure of the second
completion request — with the `[❌ Exception in chat_response]` text. -/
theorem chat_response_never_propagates (env : Env) :
    (chat_response env).msg.sender = "Assistant" ∨
      ((chat_response env).msg.sender = "AI" ∧
        ∃ e, env.net 1 = NetResult.fail e ∧
          (chat_response env).msg.text = "[❌ Exception in chat_response] " ++ e) := by
  cases h0 : env.net 0 with
  | fail e =>
    rw [chat_response_netfail env e h0]
    exact Or.inl rfl
  | ok r =>
    obtain ⟨choices⟩ := r
    cases choices with
    | none =>
      rw [chat_response_nochoices env none h0 (Or.inl rfl)]
      exact Or.inl rfl
    | some l =>
      cases l with
      | nil =>
        rw [chat_response_nochoices env (some []) h0 (Or.inr rfl)]
        exact Or.inl rfl
      | cons choice rest =>
        obtain ⟨message⟩ := choice
        cases message with
        | none =>
          rw [chat_response_nomessage env rest h0]
          exact Or.inl rfl
        | some m =>
          cases htc : m.tool_calls with
          | absent =>
            rw [chat_response_elsebranch env m rest h0 (by rw [htc]; rfl)]
            exact elseBranchResult_sender env (initialMessages env)
          | nonList =>
            rw [chat_response_elsebranch env m rest h0 (by rw [htc]; rfl)]
            exact elseBranchResult_sender env (initialMessages env)
          | list calls =>
            cases calls with
            | nil =>
              rw [chat_response_elsebranch env m rest h0 (by rw [htc]; rfl)]
              exact elseBranchResult_sender env (initialMessages env)
            | cons c cs =>
              rw [chat_response_toolbranch env m rest c cs h0 htc]
              exact Or.inl rfl

/-- C6 counterexample: the claim says every credential-resolution
operation never throws outward, but
`NearAIModelComponent.get_default_credentials_api_key` raises a
`TypeError` (it subscripts the raw secret string with `"auth"`) for this
concrete, perfectly well-formed credential blob. -/
theorem get_default_credentials_throws :
    get_default_credentials_api_key "\x7b\"auth\": \"key\"\x7d"
        "\x7b\"auth\": \"key\"\x7d"
      = Except.error "TypeError: string indices must be integers" := rfl

/-- C6 (amended): both `get_credentials_api_key` implementations return
either an API key string or `None` and never throw — a JSON parse
failure and a missing `auth` field are caught and mapped to `None`; but
`get_default_credentials_api_key` only returns `None` when the default
credentials are empty, and raises a `TypeError` for every non-empty
credential blob. -/
theorem credential_resolution_amended :
    (∀ (s : String) (jl : String → Except String Json) (e : String),
        jl s = Except.error e → get_credentials_api_key (some s) jl = none) ∧
      (∀ (s : String) (jl : String → Except String Json)
          (fields : List (String × Json)),
        jl s = Except.ok (Json.obj fields) → dictGet fields "auth" = none →
          get_credentials_api_key (some s) jl = none) ∧
      (∀ (cred : Option String) (jl : String → Except String Json),
        get_credentials_api_key cred jl = none ∨
          ∃ k, get_credentials_api_key cred jl = some k) ∧
      (∀ (s : String) (jl : String → Except String Json) (e : String),
        jl s = Except.error e → nearai_get_credentials_api_key (some s) jl = none) ∧
      (∀ (cred : Option String) (jl : String → Except String Json),
        nearai_get_credentials_api_key cred jl = none ∨
          ∃ k, nearai_get_credentials_api_key cred jl = some k) ∧
      (∀ d n : String, get_default_credentials_api_key d n =
        if d == "" then Except.ok none
        else Except.error "TypeError: string indices must be integers") := by
  refine ⟨?_, ?_, ?_, ?_, ?_, ?_⟩
  · intro s jl e hj
    by_cases hs : s == ""
    · simp [get_credentials_api_key, hs]
    · simp [get_credentials_api_key, hs, hj]
  · intro s jl fields hj hf
    by_cases hs : s == ""
    · simp [get_credentials_api_key, hs]
    · simp [get_credentials_api_key, hs, hj, jsonDictGet, hf]
  · intro cred jl
    cases get_credentials_api_key cred jl with
    | none => exact Or.inl rfl
    | some k => exact Or.inr ⟨k, rfl⟩
  · intro s jl e hj
    by_cases hs : s == ""
    · simp [nearai_get_credentials_api_key, hs]
    · simp [nearai_get_credentials_api_key, hs, hj]
  · intro cred jl
    cases nearai_get_credentials_api_key cred jl with
    | none => exact Or.inl rfl
    | some k => exact Or.inr ⟨k, rfl⟩
  · intro d n
    rfl

/-- C6 witness: both resolvers yield `None` on a blob the parser
rejects. -/
theorem credential_resolution_amended_witness :
    get_credentials_api_key (some "notjson")
        (fun _ => Except.error "Expecting value") = none ∧
      nearai_get_credentials_api_key (some "notjson")
        (fun _ => Except.error "Expecting value") = none :=
  ⟨credential_resolution_amended.1 "notjson"
      (fun _ => Except.error "Expecting value") "Expecting value" rfl,
    credential_resolution_amended.2.2.2.1 "notjson"
      (fun _ => Except.error "Expecting value") "Expecting value" rfl⟩

/-- C7 counterexample: the claim says every call of the model-listing
operation returns an ordered sequence of model identifiers, but
`NearAIModelComponent.fetch_openai_models` returns `None` on a
successful fetch of a non-empty model list (the success path falls off
the end of the `try` without a `return`). -/
theorem nearai_fetch_returns_none_on_success :
    (nearai_fetch_openai_models (some "key")
        ["gpt-4o", "gpt-4", "gpt-3.5-turbo"]
        (Except.ok ["fireworks::a/m"])).ret = none := rfl

/-- C7 (amended): the agent component's `fetch_openai_models` always
returns a list — the cached list without a network call when the API key
is absent, the cached list on a network failure, and the fresh list on
success; the model component's variant returns the cached list on an
absent key (no network call), on failure and on an empty fetched list,
but on a successful non-empty fetch it updates the cache and dropdown
and returns `None`. -/
theorem fetch_models_amended :
    (∀ (cached : List String) (map : List (String × String))
        (net : Except String (List String)),
        fetch_openai_models none cached map net =
          { ret := cached, models := cached, displayMap := map
            networkCalled := false }) ∧
      (∀ (k : String) (cached : List String) (map : List (String × String))
          (e : String),
        ¬(k = "") → fetch_openai_models (some k) cached map (Except.error e) =
          { ret := cached, models := cached, displayMap := map
            networkCalled := true }) ∧
      (∀ (k : String) (cached : List String) (map : List (String × String))
          (ids : List String),
        ¬(k = "") → fetch_openai_models (some k) cached map (Except.ok ids) =
          { ret := ids, models := ids, displayMap := buildDisplayMap ids
            networkCalled := true }) ∧
      (∀ (cached : List String) (net : Except String (List String)),
        nearai_fetch_openai_models none cached net =
          { ret := some cached, models := cached, dropdownUpdated := false
            networkCalled := false }) ∧
      (∀ (k : String) (cached : List String) (e : String),
        ¬(k = "") → nearai_fetch_openai_models (some k) cached (Except.error e) =
          { ret := some cached, models := cached, dropdownUpdated := false
            networkCalled := true }) ∧
      (∀ (k : String) (cached ids : List String),
        ¬(k = "") → ids ≠ [] →
          nearai_fetch_openai_models (some k) cached (Except.ok ids) =
            { ret := none, models := ids, dropdownUpdated := true
              networkCalled := true }) := by
  refine ⟨?_, ?_, ?_, ?_, ?_, ?_⟩
  · intro cached map net
    rfl
  · intro k cached map e hk
    have hb : (k == "") = false := beq_eq_false_iff_ne.mpr hk
    simp [fetch_openai_models, pyStrTruthy, hb]
  · intro k cached map ids hk
    have hb : (k == "") = false := beq_eq_false_iff_ne.mpr hk
    simp [fetch_openai_models, pyStrTruthy, hb]
  · intro cached net
    rfl
  · intro k cached e hk
    have hb : (k == "") = false := beq_eq_false_iff_ne.mpr hk
    simp [nearai_fetch_openai_models, pyStrTruthy, hb]
  · intro k cached ids hk hids
    have hb : (k == "") = false := beq_eq_false_iff_ne.mpr hk
    cases ids with
    | nil => exact absurd rfl hids
    | cons a as => simp [nearai_fetch_openai_models, pyStrTruthy, hb]

/-- C7 witness: concrete instances of the failure-fallback and the
returns-`None`-on-success behaviours. -/
theorem fetch_models_amended_witness :
    fetch_openai_models (some "key") ["m0"] [("m0", "m0")] (Except.error "boom") =
      { ret := ["m0"], models := ["m0"], displayMap := [("m0", "m0")]
        networkCalled := true } ∧
      nearai_fetch_openai_models (some "key") ["m0"] (Except.ok ["m1"]) =
        { ret := none, models := ["m1"], dropdownUpdated := true
          networkCalled := true } :=
  ⟨fetch_models_amended.2.1 "key" ["m0"] [("m0", "m0")] "boom" (by decide),
    fetch_models_amended.2.2.2.2.2 "key" ["m0"] ["m1"] (by decide) (by decide)⟩

/-- C8: for every catalog and every input string, both resolution
implementations return the mapped entry when the input is a key of the
catalog (the binding actually occurs in the catalog) and return the
input unchanged when it is not a key — resolution never fails. -/
theorem resolve_lookup_or_passthrough (map : List (String × String)) (x : String) :
    (x ∉ map.map Prod.fst → resolve map x = x ∧ nearai_resolve map x = x) ∧
      (x ∈ map.map Prod.fst →
        ∃ v, (x, v) ∈ map ∧ resolve map x = v ∧ nearai_resolve map x = v) := by
  constructor
  · intro h
    have hd := dictGet_eq_none_of_not_mem_keys h
    exact ⟨by simp [resolve, dictGetD, hd], by simp [nearai_resolve, hd]⟩
  · intro h
    obtain ⟨v, hv, hmem⟩ := dictGet_exists_of_mem_keys h
    exact ⟨v, hmem, by simp [resolve, dictGetD, hv], by simp [nearai_resolve, hv]⟩

/-- C8 witness: pass-through on an unknown display name. -/
theorem resolve_lookup_or_passthrough_witness :
    resolve [("fw - m", "fw::a/m")] "other" = "other" ∧
      nearai_resolve [("fw - m", "fw::a/m")] "other" = "other" :=
  (resolve_lookup_or_passthrough [("fw - m", "fw::a/m")] "other").1 (by decide)

/-- C9: for every name without the separator `"::"`,
`format_model_display_name` is the identity; for every name containing
`"::"`, the result is `"<provider> - <seg>"` where `provider` is the text
before the FIRST occurrence of `"::"` (shortest prefix) and `seg` is the
final `'/'`-separated component of the remainder; and the spec's example
evaluates as stated. -/
theorem format_model_display_name_spec (name : String) :
    (containsSub sepColons name.data = false →
        format_model_display_name name = name) ∧
      (containsSub sepColons name.data = true →
        ∃ p r seg, name.data = p ++ sepColons ++ r ∧
          (∀ p' r', name.data = p' ++ sepColons ++ r' → p.length ≤ p'.length) ∧
          '/' ∉ seg ∧ (r = seg ∨ ∃ u, r = u ++ '/' :: seg) ∧
          format_model_display_name name = String.mk p ++ " - " ++ String.mk seg) ∧
      format_model_display_name
          "fireworks::accounts/fireworks/models/mistral-small-24b-instruct-2501" =
        "fireworks - mistral-small-24b-instruct-2501" := by
  refine ⟨?_, ?_, ?_⟩
  · intro h
    simp [format_model_display_name, h]
  · intro h
    obtain ⟨p, r, hsplit⟩ := splitOnce_exists_of_containsSub h
    have hdec := splitOnce_decomp hsplit
    have hmin := splitOnce_min hsplit
    have hseg := afterLastSlash_foldl_spec r [] (by simp)
    refine ⟨p, r, afterLastSlash r, hdec, hmin, hseg.1, ?_, ?_⟩
    · rcases hseg.2 with ⟨heq, _⟩ | ⟨u, hu⟩
      · left
        simp only [afterLastSlash, heq, List.nil_append]
      · right
        refine ⟨u, ?_⟩
        simp only [afterLastSlash]
        simpa using hu
    · simp [format_model_display_name, h, hsplit]
  · rfl

/-- C9 witness: the separator-free identity case at a concrete input. -/
theorem format_model_display_name_spec_witness :
    format_model_display_name "gpt-4o" = "gpt-4o" :=
  (format_model_display_name_spec "gpt-4o").1 (by decide)

/-- C10: a tool call whose function record lacks a (truthy) name is
skipped entirely: the final message sequence and the dispatched-call
trace are exactly those of the remaining calls, in order — no messages
are appended for the nameless call and its processing does not disturb
the others. -/
theorem chat_response_skips_nameless (env : Env) (message : RespMessage)
    (rest : List Choice) (pre post : List ToolCall) (c : ToolCall)
    (h : env.net 0 = NetResult.ok { choices := some ({ message := some message } :: rest) })
    (htc : message.tool_calls = ToolCallsField.list (pre ++ c :: post))
    (hc : pyStrTruthy ((c.function.getD { name := none, arguments := none }).name) = false) :
    (chat_response env).trace.finalMessages =
      initialMessages env ++
        (pre ++ post).flatMap (toolCallMsgs env.jsonLoads (buildRegistry env.tools)) ∧
      (chat_response env).trace.dispatched = (pre ++ post).flatMap toolCallDispatch := by
  have hne : ∃ d ds, pre ++ c :: post = d :: ds := by
    cases pre with
    | nil => exact ⟨c, post, rfl⟩
    | cons a as => exact ⟨a, as ++ c :: post, by simp⟩
  obtain ⟨d, ds, hds⟩ := hne
  rw [hds] at htc
  rw [chat_response_toolbranch env message rest d ds h htc]
  have hnil := toolCallMsgs_of_nameless env.jsonLoads (buildRegistry env.tools) c hc
  constructor
  · simp only [toolBranchResult]
    rw [(foldl_processToolCall env.jsonLoads (buildRegistry env.tools) (d :: ds) _).1]
    rw [← hds]
    simp [List.flatMap_append, hnil.1]
  · simp only [toolBranchResult]
    rw [(foldl_processToolCall env.jsonLoads (buildRegistry env.tools) (d :: ds) _).2]
    rw [← hds]
    simp [List.flatMap_append, hnil.2]

/-- C10 witness: a named call, then a nameless call, then an
unregistered named call — the nameless one contributes nothing and the
other two are processed in order. -/
theorem chat_response_skips_nameless_witness :
    (chat_response envNameless).trace.finalMessages =
      [Msg.system "sys", Msg.user "hi",
       Msg.assistantToolCall callOk, Msg.toolResult "id2" "okt" "fine",
       Msg.assistantToolCall callBoom,
       Msg.toolResult "id1" "boom" "[Unknown tool: boom]"] ∧
      (chat_response envNameless).trace.dispatched = ["okt", "boom"] := by
  have h := chat_response_skips_nameless envNameless
    { content := none, tool_calls := ToolCallsField.list [callOk, callNoName, callBoom] }
    [] [callOk] [callBoom] callNoName rfl rfl rfl
  exact ⟨h.1.trans rfl, h.2.trans rfl⟩

end NearFlow
